import Mathlib

/-!
# Verification of the valutatrade_hub rate pipeline and trading use-cases

Shallow embedding of the claim-relevant parts of the repository:

* `valutatrade_hub/parser_service/updater.py` — `RatesUpdater.run_update`
* `valutatrade_hub/core/usecases.py` — `get_rate` (with its `_is_fresh`
  closure), `buy_currency`, `sell_currency`
* `valutatrade_hub/core/currencies.py` — `get_currency` / the registry

Modelling conventions:

* Python numbers (`int`/`float`) are modelled as `ℚ`; decimal literals from
  the source are taken at their exact decimal value.
* JSON documents are modelled as insertion-ordered association lists
  (`dictGet`/`dictSet` mirror Python `dict.get` / item assignment).
* The flat-file persistence (`_load_json`/`_save_json`, `json.load`/`dump`)
  is modelled by passing the parsed document in and returning the document
  that the function writes back; "file missing or unparseable JSON" is the
  empty document, exactly as in the source's `except`-to-`{}` handling.
* Python exceptions become an `Except PyErr` result; the distinct exception
  classes of `core/exceptions.py` are separate `PyErr` constructors.
* `datetime` values are modelled by their calendar fields plus an optional
  UTC offset (`none` = naive).  `datetime.fromisoformat` is modelled for the
  Python ≥ 3.11 grammar subset that this repository can produce or store
  (the repository requires Python ≥ 3.11: `infra/settings.py` imports
  `tomllib`): `YYYY-MM-DD[<sep>HH:MM[:SS[.f{1,6}]][Z|±HH[:MM]]]`.
  Sub-second precision is dropped (all timestamps the model compares are at
  second granularity).
-/

/-! ## Python-style dictionaries as insertion-ordered association lists -/

/-- Python `d.get(k)`: first (and only, for genuine dicts) binding. -/
def dictGet {α : Type} (d : List (String × α)) (k : String) : Option α :=
  match d with
  | [] => none
  | (k', v) :: rest => if k' = k then some v else dictGet rest k

/-- Python `d[k] = v`: overwrite in place, else append (insertion order
preserved, as in CPython). -/
def dictSet {α : Type} (d : List (String × α)) (k : String) (v : α) :
    List (String × α) :=
  match d with
  | [] => [(k, v)]
  | (k', v') :: rest =>
      if k' = k then (k', v) :: rest else (k', v') :: dictSet rest k v

/-- Keys of an association list. -/
def dictKeys {α : Type} (d : List (String × α)) : List String :=
  d.map Prod.fst

/-! ## Kernel-computable models of the Python `str` operations used

Lean core's `String.trim`, `String.toUpper` and the `String` order are
defined through iterators and well-founded recursion, which the kernel
cannot evaluate; the claims need concrete evaluation, so the `str`
operations are modelled directly on the character list. -/

/-- Python `s.strip()` (ASCII whitespace, which is all this data contains). -/
def pyStrip (s : String) : String :=
  ⟨(((s.data.dropWhile Char.isWhitespace).reverse).dropWhile
      Char.isWhitespace).reverse⟩

/-- Python `s.upper()` on ASCII data. -/
def pyUpper (s : String) : String :=
  ⟨s.data.map Char.toUpper⟩

/-- Lexicographic code-point order on character lists: Python `str <`. -/
def charListLt : List Char → List Char → Bool
  | [], [] => false
  | [], _ :: _ => true
  | _ :: _, [] => false
  | a :: as, b :: bs =>
      if a.val < b.val then true
      else if b.val < a.val then false
      else charListLt as bs

/-- Python `a < b` on strings. -/
def pyStrLt (a b : String) : Bool :=
  charListLt a.data b.data

/-- With a trailing `Z`, returns the string without it; `none` otherwise. -/
def stripZ (s : String) : Option String :=
  match s.data.reverse with
  | 'Z' :: rest => some ⟨rest.reverse⟩
  | _ => none

/-! ## Python exceptions (`core/exceptions.py` plus built-ins) -/

/-- The exceptions the modelled functions can raise.  `valueError` and
`typeError` are Python built-ins; the other three are the project's typed
exception classes from `core/exceptions.py` (each carries the data fed to its
constructor). -/
inductive PyErr where
  | valueError (msg : String) : PyErr
  | typeError : PyErr
  | insufficientFundsError (available required code : String) : PyErr
  | currencyNotFoundError (code : String) : PyErr
  | apiRequestError (reason : String) : PyErr
deriving DecidableEq, Repr

/-! ## JSON values for the rates file

The rates file that `get_rate` / `buy_currency` / `sell_currency` read and
write holds, at top level, either pair objects (`{"rate": ..,
"updated_at": .., ...}`) or primitive values (the `"source"` /
`"last_refresh"` strings that `get_rate` writes).  Two levels suffice for
every document these functions produce or inspect. -/

inductive JPrim where
  | num (q : ℚ) : JPrim
  | str (s : String) : JPrim
deriving DecidableEq, Repr

inductive JVal where
  | prim (p : JPrim) : JVal
  | obj (fields : List (String × JPrim)) : JVal
deriving DecidableEq, Repr

/-- The parsed rates document (a Python dict). -/
abbrev RatesDict := List (String × JVal)

/-! ## `datetime` model -/

/-- A Python `datetime`: calendar fields plus optional UTC offset in seconds
(`tzoff = none` models a naive datetime such as `datetime.now()`). -/
structure PyDateTime where
  year : Nat
  month : Nat
  day : Nat
  hour : Nat
  minute : Nat
  second : Nat
  tzoff : Option Int
deriving DecidableEq, Repr

def isLeapYear (y : Nat) : Bool :=
  (y % 4 = 0 && y % 100 ≠ 0) || (y % 400 = 0)

def daysInMonth (y m : Nat) : Nat :=
  if m = 2 then (if isLeapYear y then 29 else 28)
  else if m = 4 ∨ m = 6 ∨ m = 9 ∨ m = 11 then 30
  else 31

/-- Days since the civil epoch 0000-03-01 (Hinnant's `days_from_civil`,
specialised to `y ≥ 1`, which Python's `datetime` guarantees). -/
def daysFromCivil (y m d : Nat) : Nat :=
  let yy := if m ≤ 2 then y - 1 else y
  let era := yy / 400
  let yoe := yy % 400
  let mp := (m + 9) % 12
  let doy := (153 * mp + 2) / 5 + (d - 1)
  let doe := yoe * 365 + yoe / 4 - yoe / 100 + doy
  era * 146097 + doe

/-- Seconds on the datetime's own clock (timezone offset not applied). -/
def toSec (t : PyDateTime) : Int :=
  (daysFromCivil t.year t.month t.day : Int) * 86400 +
    (t.hour : Int) * 3600 + (t.minute : Int) * 60 + (t.second : Int)

/-- Python datetime subtraction `a - b` in seconds: naive − naive and
aware − aware are defined (aware operands are first normalised to UTC by
their offsets); mixing naive and aware raises `TypeError`, modelled as
`.error ()`. -/
def pySub (a b : PyDateTime) : Except Unit Int :=
  match a.tzoff, b.tzoff with
  | none, none => .ok (toSec a - toSec b)
  | some oa, some ob => .ok ((toSec a - oa) - (toSec b - ob))
  | _, _ => .error ()

def pad2 (n : Nat) : String :=
  if n < 10 then "0" ++ toString n else toString n

def pad4 (n : Nat) : String :=
  if n < 10 then "000" ++ toString n
  else if n < 100 then "00" ++ toString n
  else if n < 1000 then "0" ++ toString n
  else toString n

/-- Python `datetime.isoformat()` for the naive, whole-second datetimes this
model produces (`datetime.now()` values are naive; Python omits the fraction
when `microsecond == 0`). -/
def isoformat (t : PyDateTime) : String :=
  pad4 t.year ++ "-" ++ pad2 t.month ++ "-" ++ pad2 t.day ++ "T" ++
    pad2 t.hour ++ ":" ++ pad2 t.minute ++ ":" ++ pad2 t.second

/-! ## `datetime.fromisoformat` (Python ≥ 3.11 grammar subset) -/

def digitVal (c : Char) : Option Nat :=
  if c.isDigit then some (c.toNat - 48) else none

def read2 : List Char → Option (Nat × List Char)
  | c1 :: c2 :: rest => do
      let d1 ← digitVal c1
      let d2 ← digitVal c2
      pure (10 * d1 + d2, rest)
  | _ => none

def read4 : List Char → Option (Nat × List Char)
  | c1 :: c2 :: c3 :: c4 :: rest => do
      let d1 ← digitVal c1
      let d2 ← digitVal c2
      let d3 ← digitVal c3
      let d4 ← digitVal c4
      pure (1000 * d1 + 100 * d2 + 10 * d3 + d4, rest)
  | _ => none

/-- A UTC offset written `HH` or `HH:MM` (Python validates the components). -/
def parseOffsetTail (cs : List Char) : Option Nat := do
  let (oh, rest) ← read2 cs
  if oh ≥ 24 then none else
  match rest with
  | [] => pure (oh * 3600)
  | ':' :: r2 => do
      let (om, rest2) ← read2 r2
      if om ≥ 60 then none else
      match rest2 with
      | [] => pure (oh * 3600 + om * 60)
      | _ => none
  | _ => none

/-- The timezone suffix: empty (naive), `Z`/`z`, or `±HH[:MM]`. -/
def parseTzEnd : List Char → Option (Option Int)
  | [] => some none
  | ['Z'] => some (some 0)
  | ['z'] => some (some 0)
  | '+' :: r => (parseOffsetTail r).map (fun o => some (o : Int))
  | '-' :: r => (parseOffsetTail r).map (fun o => some (-(o : Int)))
  | _ => none

/-- Fractional seconds: 1–6 digits, value dropped (model granularity is one
second); returns the characters after the fraction. -/
def parseFrac (cs : List Char) : Option (List Char) :=
  let ds := cs.takeWhile Char.isDigit
  if 1 ≤ ds.length ∧ ds.length ≤ 6 then some (cs.dropWhile Char.isDigit)
  else none

/-- The time-of-day part `HH:MM[:SS[.f{1,6}]]` plus timezone suffix. -/
def parseTime (cs : List Char) : Option (Nat × Nat × Nat × Option Int) := do
  let (h, rest) ← read2 cs
  if h ≥ 24 then none else
  match rest with
  | ':' :: r1 => do
      let (mi, rest1) ← read2 r1
      if mi ≥ 60 then none else
      match rest1 with
      | ':' :: r2 => do
          let (s, rest2) ← read2 r2
          if s ≥ 60 then none else
          match rest2 with
          | '.' :: r3 => do
              let rest3 ← parseFrac r3
              let off ← parseTzEnd rest3
              pure (h, mi, s, off)
          | _ => do
              let off ← parseTzEnd rest2
              pure (h, mi, s, off)
      | _ => do
          let off ← parseTzEnd rest1
          pure (h, mi, 0, off)
  | _ => none

/-- Model of `datetime.fromisoformat` on the grammar subset
`YYYY-MM-DD[<sep>HH:MM[:SS[.f{1,6}]][Z|±HH[:MM]]]` (Python ≥ 3.11 accepts
the `Z` suffix and an arbitrary one-character separator; this repository
runs on ≥ 3.11, see `infra/settings.py` importing `tomllib`). -/
def fromisoformat (s : String) : Option PyDateTime :=
  match s.data with
  | y1 :: y2 :: y3 :: y4 :: '-' :: m1 :: m2 :: '-' :: d1 :: d2 :: rest => do
      let (y, _) ← read4 [y1, y2, y3, y4]
      let (m, _) ← read2 [m1, m2]
      let (d, _) ← read2 [d1, d2]
      if y = 0 ∨ m = 0 ∨ m > 12 ∨ d = 0 ∨ d > daysInMonth y m then none else
      match rest with
      | [] => pure ⟨y, m, d, 0, 0, 0, none⟩
      | _sep :: timeRest => do
          let (h, mi, s, off) ← parseTime timeRest
          pure ⟨y, m, d, h, mi, s, off⟩
  | _ => none

/-! ## `get_rate._is_fresh` (usecases.py lines 393–398) -/

/-- Model of the `_is_fresh` closure inside `get_rate`.  `now` is the value
of `datetime.now()` captured by the closure.  Only the
`datetime.fromisoformat` call is inside the `try`: a parse failure returns
`False`, but the subtraction `now - ts` is outside it, so an offset-aware
parse result makes the naive subtraction raise `TypeError` (`.error ()`).
`max_age = timedelta(minutes=5)` is 300 seconds. -/
def is_fresh (now : PyDateTime) (updated_at_iso : String) : Except Unit Bool :=
  match fromisoformat updated_at_iso with
  | none => .ok false
  | some ts =>
      match pySub now ts with
      | .error _ => .error ()
      | .ok d => .ok (d ≤ 300)

/-! ## Rates updater (`parser_service/updater.py`, `RatesUpdater.run_update`)

A refresh run is modelled by the observable behaviour of each configured
client: either its `fetch_rates()` raised (`ApiRequestError` or any
unexpected exception — both `except` branches log and `continue`), or it
returned a dict, represented by its items in iteration order together with
the `utc_now_iso()` string the updater captured right after the fetch. -/

/-- One snapshot pair entry as written by the updater (lines 86–90). -/
structure PairEntry where
  rate : ℚ
  updated_at : String
  source : String
deriving DecidableEq, Repr

abbrev PairsDict := List (String × PairEntry)

/-- One history record (lines 92–104; the constant `meta = {}` field is
omitted). -/
structure HistoryRecord where
  id : String
  from_currency : String
  to_currency : String
  rate : ℚ
  timestamp : String
  source : String
deriving DecidableEq, Repr

/-- Characters of `s` before the first underscore:
Python `s.split("_", 1)[0]`. -/
def splitUnderscoreFst (s : String) : String :=
  ⟨s.data.takeWhile (· ≠ '_')⟩

/-- Characters of `s` after the first underscore, `""` when `s` has none:
Python `s.split("_", 1)[1] if "_" in s else ""`. -/
def splitUnderscoreSnd (s : String) : String :=
  match s.data.dropWhile (· ≠ '_') with
  | [] => ""
  | _ :: rest => ⟨rest⟩

/-- One configured source client as observed during a run. -/
structure ClientRun where
  /-- the client's `name` attribute -/
  name : String
  /-- with `some items`, the dict returned by `fetch_rates()` (items in
  iteration order); `none` models a raised exception of either caught kind
  (or a non-dict return, which the updater turns into `ApiRequestError`) -/
  fetch : Option (List (String × ℚ))
  /-- the `utc_now_iso()` value captured after a successful fetch -/
  now_iso : String

/-- An item survives the two per-item guards (lines 77–80): a non-blank
string key and a positive numeric rate. -/
def validItem (p : String × ℚ) : Bool :=
  decide (pyStrip p.1 ≠ "") && decide (0 < p.2)

/-- Key normalisation `pair.strip().upper()` (line 82). -/
def normKey (p : String × ℚ) : String :=
  pyUpper (pyStrip p.1)

/-- Snapshot-slot update (lines 84–90): write when the key is absent or the
existing entry's timestamp is lexicographically strictly older. -/
def updateSlot (snap : PairsDict) (key : String) (rate : ℚ)
    (now_iso src : String) : PairsDict :=
  match dictGet snap key with
  | none => dictSet snap key ⟨rate, now_iso, src⟩
  | some current =>
      if pyStrLt current.updated_at now_iso then
        dictSet snap key ⟨rate, now_iso, src⟩
      else snap

/-- The history record appended for every accepted observation (lines
92–104). -/
def mkHistoryRecord (key : String) (rate : ℚ) (now_iso src : String) :
    HistoryRecord :=
  { id := key ++ "_" ++ now_iso
    from_currency := splitUnderscoreFst key
    to_currency := splitUnderscoreSnd key
    rate := rate
    timestamp := now_iso
    source := src }

/-- The body of the per-item loop (lines 76–106). -/
def processItem (src now_iso : String) (st : PairsDict × List HistoryRecord)
    (item : String × ℚ) : PairsDict × List HistoryRecord :=
  if validItem item then
    let key := normKey item
    (updateSlot st.1 key item.2 now_iso src,
      st.2 ++ [mkHistoryRecord key item.2 now_iso src])
  else st

/-- The body of the per-client loop (lines 62–115): a failed client changes
nothing (log-and-continue). -/
def processClient (st : PairsDict × List HistoryRecord) (c : ClientRun) :
    PairsDict × List HistoryRecord :=
  match c.fetch with
  | none => st
  | some items => items.foldl (processItem c.name c.now_iso) st

/-- In-progress snapshot and history after all clients were attempted. -/
def mergedState (clients : List ClientRun) :
    PairsDict × List HistoryRecord :=
  clients.foldl processClient ([], [])

/-- The snapshot document `{"pairs": ..., "last_refresh": ...}`. -/
structure Snapshot where
  pairs : PairsDict
  last_refresh : String
deriving DecidableEq, Repr

/-- The two files behind the `RatesStorage` protocol: `save_snapshot`
overwrites the snapshot file, `append_history` extends the history file. -/
structure StorageState where
  snapshot : Option Snapshot
  history : List HistoryRecord
deriving DecidableEq, Repr

/-- Model of `RatesUpdater.run_update` (lines 48–138).  `finished_at` is the
`utc_now_iso()` value taken after the loop.  The second component is the
storage state after the call: on the "no data from any source"
`ApiRequestError` (line 129) nothing was saved, so the prior state is
returned untouched. -/
def run_update (clients : List ClientRun) (finished_at : String)
    (st : StorageState) : Except PyErr Snapshot × StorageState :=
  let m := mergedState clients
  if m.1 = [] then
    (.error (.apiRequestError "Не удалось получить курсы ни от одного источника."),
      st)
  else
    let snapshot : Snapshot := ⟨m.1, finished_at⟩
    (.ok snapshot, ⟨some snapshot, st.history ++ m.2⟩)

/-! ## Currency registry (`core/currencies.py`) -/

/-- Codes registered in the module-level `_CURRENCY_REGISTRY`. -/
def currencyRegistryCodes : List String := ["USD", "EUR", "BTC", "ETH"]

/-- Model of `get_currency` (lines 109–117); the returned `Currency` object
is represented by its code, which is all the claims consult. -/
def get_currency (code : String) : Except PyErr String :=
  if pyStrip code = "" then .error (.currencyNotFoundError "")
  else
    let key := pyUpper (pyStrip code)
    if key ∈ currencyRegistryCodes then .ok key
    else .error (.currencyNotFoundError key)

/-! ## Rate lookup (`core/usecases.py`, `get_rate`, lines 369–449) -/

/-- The hard-coded fallback table `exchange_rates_stub` (lines 415–420),
decimal literals taken exactly. -/
def exchange_rates_stub : List (String × ℚ) :=
  [("EUR_USD", 10786 / 10000),
   ("BTC_USD", 5933721 / 100),
   ("RUB_USD", 1016 / 100000),
   ("ETH_USD", 3720)]

/-- Model of the `_get_from_stub` closure (lines 422–429): direct hit wins;
otherwise the inverse pair, inverted, provided it is positive. -/
def get_from_stub (frm toc : String) : Option ℚ :=
  match dictGet exchange_rates_stub (frm ++ "_" ++ toc) with
  | some direct => some direct
  | none =>
      match dictGet exchange_rates_stub (toc ++ "_" ++ frm) with
      | some rev => if 0 < rev then some (1 / rev) else none
      | none => none

/-- The cached-entry branch (lines 400–413): returns `some rate` when the
direct pair entry is a dict with a positive numeric `rate`, a string
`updated_at`, and `_is_fresh` holds; `none` when any guard fails or the
entry is stale; propagates the `TypeError` that `_is_fresh` raises on an
offset-aware stored timestamp. -/
def cacheCheck (now : PyDateTime) (rates : RatesDict) (pair_key : String) :
    Except Unit (Option ℚ) :=
  match dictGet rates pair_key with
  | some (JVal.obj fields) =>
      match dictGet fields "rate", dictGet fields "updated_at" with
      | some (JPrim.num rate_val), some (JPrim.str updated_at) =>
          if 0 < rate_val then
            match is_fresh now updated_at with
            | .error _ => .error ()
            | .ok true => .ok (some rate_val)
            | .ok false => .ok none
          else .ok none
      | _, _ => .ok none
  | _ => .ok none

/-- Observable outcome of a successful `get_rate` call: the rate served,
whether it came from the fresh cache, and the document written to the rates
file (`none` when nothing was written).  The human-readable result string
(lines 410–413 / 446–449) adds no further information and is not modelled. -/
structure GetRateRes where
  rate : ℚ
  from_cache : Bool
  written : Option RatesDict
deriving DecidableEq, Repr

/-- Model of `get_rate` (lines 369–449).  `now` is the `datetime.now()`
value (naive); `rates` is the parsed rates file (missing file or unparseable
JSON both yield `{}` in the source, i.e. `[]` here). -/
def get_rate (now : PyDateTime) (rates : RatesDict)
    (from_currency to_currency : String) : Except PyErr GetRateRes :=
  if pyStrip from_currency = "" then
    .error (.valueError "Курс недоступен. Повторите попытку позже.")
  else if pyStrip to_currency = "" then
    .error (.valueError "Курс недоступен. Повторите попытку позже.")
  else
    let frm := pyUpper (pyStrip from_currency)
    let toc := pyUpper (pyStrip to_currency)
    let pair_key := frm ++ "_" ++ toc
    match cacheCheck now rates pair_key with
    | .error _ => .error .typeError
    | .ok (some rate) => .ok ⟨rate, true, none⟩
    | .ok none =>
        match get_from_stub frm toc with
        | none =>
            .error (.valueError
              ("Курс " ++ frm ++ "→" ++ toc ++ " недоступен. Повторите попытку позже."))
        | some stub_rate =>
            let updated_iso := isoformat now
            let rates1 := dictSet rates pair_key
              (JVal.obj [("rate", JPrim.num stub_rate),
                         ("updated_at", JPrim.str updated_iso)])
            let rates2 := dictSet rates1 "source" (JVal.prim (JPrim.str "Stub"))
            let rates3 := dictSet rates2 "last_refresh"
              (JVal.prim (JPrim.str updated_iso))
            .ok ⟨stub_rate, false, some rates3⟩

/-! ## Buy/sell use-cases (`core/usecases.py`, lines 196–366)

The portfolios file is a JSON array of `{"user_id": ..., "wallets":
{code: {"balance": ...}}}` objects; the logged-in user
(`_current_user`) is represented by `some user_id`.  Both functions return
the result together with the portfolios document on disk after the call
(`_save_json` is the only write). -/

/-- One wallet object from the portfolios file. -/
abbrev WalletObj := List (String × JPrim)

structure PortfolioData where
  user_id : Int
  wallets : List (String × WalletObj)
deriving DecidableEq, Repr

/-- Python `wallets[code].get("balance", 0.0)` followed by the
non-numeric-to-`0.0` normalisation (lines 227–230 / 307–310 / 347–349). -/
def walletBalance (w : WalletObj) : ℚ :=
  match dictGet w "balance" with
  | some (JPrim.num b) => b
  | _ => 0

/-- Search for the first portfolio with the given `user_id` (lines
211–215). -/
def findPortfolio (ps : List PortfolioData) (uid : Int) : Option PortfolioData :=
  ps.find? (fun p => p.user_id == uid)

/-- Effect of `_save_json(PORTFOLIOS_FILE, portfolios)` after the first
matching portfolio dict was mutated in place (or, when none matched, a fresh
one was appended): the stored list with that portfolio's wallets replaced. -/
def savePortfolios : List PortfolioData → Int → List (String × WalletObj) →
    List PortfolioData
  | [], uid, w => [⟨uid, w⟩]
  | p :: ps, uid, w =>
      if p.user_id = uid then ⟨uid, w⟩ :: ps
      else p :: savePortfolios ps uid w

/-- The rate check shared by `buy_currency` (lines 246–255) and
`sell_currency` (lines 333–342): the direct pair entry must be a dict whose
`"rate"` is a positive number; every failure mode raises the same
`ValueError`, so they collapse to `none`.  No freshness or `updated_at`
inspection occurs here. -/
def ratesPairRate (rates : RatesDict) (pair_key : String) : Option ℚ :=
  match dictGet rates pair_key with
  | some (JVal.obj fields) =>
      match dictGet fields "rate" with
      | some (JPrim.num r) => if 0 < r then some r else none
      | _ => none
  | _ => none

/-- Round-half-even of the fraction `n / d` (`d > 0`): the rounding Python's
fixed-point float formatting applies, computed on `Int`/`Nat` so the kernel
can evaluate it. -/
def roundHalfEvenFrac (n : Int) (d : Nat) : Int :=
  let f := Int.fdiv n d
  let r := n - f * d
  if 2 * r < (d : Int) then f
  else if (d : Int) < 2 * r then f + 1
  else if f % 2 = 0 then f else f + 1

/-- Decimal digits of `n` left-padded with zeros to `width`. -/
def padZeros (width : Nat) (n : Nat) : String :=
  ⟨List.replicate (width - (toString n).length) '0'⟩ ++ toString n

/-- Fixed-point formatting of a non-negative rational to `dec` decimals:
round-half-even of `q * 10^dec`, taken on the exact fraction. -/
def fmtFixedNN (dec : Nat) (q : ℚ) : String :=
  let n := (roundHalfEvenFrac (q.num * (10 ^ dec : ℕ)) q.den).toNat
  toString (n / 10 ^ dec) ++ "." ++ padZeros dec (n % 10 ^ dec)

/-- Python `f"{value:.<dec>f}"` on the exact rational value. -/
def fmtFixed (dec : Nat) (q : ℚ) : String :=
  if q < 0 then "-" ++ fmtFixedNN dec (-q) else fmtFixedNN dec q

/-- The `fmt_bal` helper duplicated at lines 259–260, 313–314 and 354–355:
four decimals for the two crypto codes, two otherwise. -/
def fmt_bal (cur_code : String) (value : ℚ) : String :=
  if cur_code = "BTC" ∨ cur_code = "ETH" then fmtFixed 4 value
  else fmtFixed 2 value

/-- Observable outcome of a successful buy/sell: the rate used, the traded
wallet's balances, and `amount * rate` (`estimated_cost` for buys,
`revenue` for sells).  The result message adds nothing further. -/
structure TradeRes where
  rate : ℚ
  old_balance : ℚ
  new_balance : ℚ
  amount_base : ℚ
deriving DecidableEq, Repr

/-- Model of `buy_currency` (lines 196–271).  Note the order faithful to the
source: the increased balance is persisted (line 235) before the rates file
is consulted (lines 237–255), so the rate-lookup `ValueError` leaves the
increase on disk. -/
def buy_currency (current_user : Option Int) (portfolios : List PortfolioData)
    (rates : RatesDict) (currency : String) (amount : ℚ) (base : String) :
    Except PyErr TradeRes × List PortfolioData :=
  match current_user with
  | none => (.error (.valueError "Сначала выполните login"), portfolios)
  | some uid =>
    if pyStrip currency = "" then
      (.error (.valueError "Некорректный код валюты"), portfolios)
    else
      let code := pyUpper (pyStrip currency)
      if amount ≤ 0 then
        (.error (.valueError "'amount' должен быть положительным числом"),
          portfolios)
      else
        let baseU := pyUpper base
        let wallets0 := (findPortfolio portfolios uid).elim [] (·.wallets)
        let wallets1 :=
          if (dictGet wallets0 code).isNone then
            dictSet wallets0 code [("balance", JPrim.num 0)]
          else wallets0
        let w := (dictGet wallets1 code).getD []
        let old_balance := walletBalance w
        let new_balance := old_balance + amount
        let wallets2 := dictSet wallets1 code
          (dictSet w "balance" (JPrim.num new_balance))
        let saved := savePortfolios portfolios uid wallets2
        let pair_key := code ++ "_" ++ baseU
        match ratesPairRate rates pair_key with
        | none =>
            (.error (.valueError
              ("Не удалось получить курс для " ++ code ++ "→" ++ baseU)), saved)
        | some rate =>
            (.ok ⟨rate, old_balance, new_balance, amount * rate⟩, saved)

/-- Model of `sell_currency` (lines 274–366).  All error paths precede the
single `_save_json` call (line 352), so on every failure the stored
portfolios are unchanged; on success the revenue is credited to the base
wallet only when one already exists (lines 346–350). -/
def sell_currency (current_user : Option Int) (portfolios : List PortfolioData)
    (rates : RatesDict) (currency : String) (amount : ℚ) (base : String) :
    Except PyErr TradeRes × List PortfolioData :=
  match current_user with
  | none => (.error (.valueError "Сначала выполните login"), portfolios)
  | some uid =>
    if pyStrip currency = "" then
      (.error (.valueError "Некорректный код валюты"), portfolios)
    else
      let code := pyUpper (pyStrip currency)
      if amount ≤ 0 then
        (.error (.valueError "'amount' должен быть положительным числом"),
          portfolios)
      else
        let baseU := pyUpper base
        let wallets0 := (findPortfolio portfolios uid).elim [] (·.wallets)
        match dictGet wallets0 code with
        | none =>
            (.error (.valueError
              ("У вас нет кошелька '" ++ code ++
                "'. Добавьте валюту: она создаётся автоматически при первой покупке.")),
              portfolios)
        | some w =>
          let old_balance := walletBalance w
          if old_balance < amount then
            (.error (.valueError
              ("Недостаточно средств: доступно " ++ fmt_bal code old_balance ++
                " " ++ code ++ ", требуется " ++ fmt_bal code amount ++ " " ++
                code)), portfolios)
          else
            let new_balance := old_balance - amount
            let wallets1 := dictSet wallets0 code
              (dictSet w "balance" (JPrim.num new_balance))
            let pair_key := code ++ "_" ++ baseU
            match ratesPairRate rates pair_key with
            | none =>
                (.error (.valueError
                  ("Не удалось получить курс для " ++ code ++ "→" ++ baseU)),
                  portfolios)
            | some rate =>
                let revenue := amount * rate
                let wallets2 :=
                  match dictGet wallets1 baseU with
                  | none => wallets1
                  | some bw => dictSet wallets1 baseU
                      (dictSet bw "balance"
                        (JPrim.num (walletBalance bw + revenue)))
                (.ok ⟨rate, old_balance, new_balance, revenue⟩,
                  savePortfolios portfolios uid wallets2)

/-- Balance recorded for `(uid, code)` in a stored portfolios document. -/
def balanceIn (ps : List PortfolioData) (uid : Int) (code : String) :
    Option ℚ :=
  (findPortfolio ps uid).bind (fun p => (dictGet p.wallets code).map walletBalance)

/-- Modelled from the spec (for comparison with the source's `_is_fresh`):
"parse stored timestamp as UTC (tolerate a trailing `Z` suffix by treating
it as `+00:00`); treat naive timestamps as UTC; fresh iff
`now - parsed <= TTL`.  Malformed timestamps are treated as not fresh", with
the default TTL of 300 seconds. -/
def spec_is_fresh (now : PyDateTime) (s : String) : Bool :=
  let s' := match stripZ s with
             | some s0 => s0 ++ "+00:00"
             | none => s
  match fromisoformat s' with
  | none => false
  | some ts =>
      let tsU := if ts.tzoff = none then { ts with tzoff := some 0 } else ts
      let nowU := if now.tzoff = none then { now with tzoff := some 0 } else now
      match pySub nowU tsU with
      | .ok d => decide (d ≤ 300)
      | .error _ => false

/-- First valid observation for normalised key `k` in a fetched item list
(the rate that `run_update`'s merge would accept first for that key). -/
def lookupValid (items : List (String × ℚ)) (k : String) : Option ℚ :=
  ((items.filter validItem).find? (fun p => normKey p == k)).map Prod.snd

/-- Names of the clients whose fetch succeeded in a run. -/
def succeededNames (clients : List ClientRun) : List String :=
  (clients.filter (fun c => c.fetch.isSome)).map ClientRun.name

/-! # Theorems

General lemmas first, then one theorem (with counterexample/witness where
required) per claim C1–C10. -/

theorem dictGet_dictSet_self {α : Type} (d : List (String × α)) (k : String)
    (v : α) : dictGet (dictSet d k v) k = some v := by
  induction d with
  | nil => simp [dictGet, dictSet]
  | cons hd tl ih =>
      obtain ⟨k', v'⟩ := hd
      by_cases h : k' = k <;> simp [dictGet, dictSet, h, ih]


theorem dictGet_dictSet_ne {α : Type} (d : List (String × α)) (k k' : String)
    (v : α) (h : k ≠ k') : dictGet (dictSet d k v) k' = dictGet d k' := by
  induction d with
  | nil => simp [dictGet, dictSet, h]
  | cons hd tl ih =>
      obtain ⟨k₀, v₀⟩ := hd
      by_cases h0 : k₀ = k
      · subst h0
        simp [dictGet, dictSet, h]
      · simp only [dictSet, if_neg h0]
        by_cases h1 : k₀ = k'
        · simp [dictGet, h1]
        · simp [dictGet, h1, ih]


theorem dictKeys_dictSet {α : Type} (d : List (String × α)) (k : String)
    (v : α) :
    dictKeys (dictSet d k v) =
      if k ∈ dictKeys d then dictKeys d else dictKeys d ++ [k] := by
  induction d with
  | nil => simp [dictKeys, dictSet]
  | cons hd tl ih =>
      obtain ⟨k₀, v₀⟩ := hd
      by_cases h0 : k₀ = k
      · subst h0
        simp [dictKeys, dictSet]
      · have hne : ¬k = k₀ := fun h => h0 h.symm
        by_cases hmem : k ∈ dictKeys tl <;>
          simp [dictKeys] at hmem <;>
          simp [dictKeys, dictSet, h0, hne, hmem] at ih ⊢ <;>
          simp [ih]


theorem dictKeys_nodup_dictSet {α : Type} (d : List (String × α)) (k : String)
    (v : α) (h : (dictKeys d).Nodup) : (dictKeys (dictSet d k v)).Nodup := by
  rw [dictKeys_dictSet]
  by_cases hmem : k ∈ dictKeys d
  · simpa [hmem]
  · simpa [hmem, List.nodup_append] using h



theorem charListLt_irrefl (l : List Char) : charListLt l l = false := by
  induction l with
  | nil => rfl
  | cons c tl ih => simp [charListLt, ih]

theorem pyStrLt_irrefl (s : String) : pyStrLt s s = false :=
  charListLt_irrefl s.data

theorem mem_dictSet {α : Type} (d : List (String × α)) (k : String) (v : α)
    (kv : String × α) (h : kv ∈ dictSet d k v) : kv ∈ d ∨ kv.2 = v := by
  induction d with
  | nil =>
      simp [dictSet] at h
      simp [h]
  | cons hd tl ih =>
      obtain ⟨k₀, v₀⟩ := hd
      by_cases h0 : k₀ = k
      · simp [dictSet, h0] at h
        rcases h with h | h
        · right
          simp [h]
        · left
          simp [h]
      · simp [dictSet, h0] at h
        rcases h with h | h
        · left
          simp [h]
        · rcases ih h with h' | h'
          · left
            simp [h']
          · right
            exact h'

theorem dictGet_updateSlot_ne (snap : PairsDict) (key k : String) (rate : ℚ)
    (t src : String) (h : key ≠ k) :
    dictGet (updateSlot snap key rate t src) k = dictGet snap k := by
  unfold updateSlot
  cases hd : dictGet snap key with
  | none => exact dictGet_dictSet_ne _ _ _ _ h
  | some cur =>
      by_cases hlt : pyStrLt cur.updated_at t
      · simp [hlt, dictGet_dictSet_ne _ _ _ _ h]
      · simp [hlt]

theorem dictGet_updateSlot_self (snap : PairsDict) (key : String) (rate : ℚ)
    (t src : String) :
    dictGet (updateSlot snap key rate t src) key =
      match dictGet snap key with
      | none => some ⟨rate, t, src⟩
      | some cur =>
          if pyStrLt cur.updated_at t then some ⟨rate, t, src⟩
          else some cur := by
  unfold updateSlot
  cases hd : dictGet snap key with
  | none => simpa using dictGet_dictSet_self _ _ _
  | some cur =>
      by_cases hlt : pyStrLt cur.updated_at t
      · simpa [hlt] using dictGet_dictSet_self _ _ _
      · simpa [hlt] using hd

theorem updateSlot_cases (snap : PairsDict) (key : String) (rate : ℚ)
    (t src : String) :
    updateSlot snap key rate t src = dictSet snap key ⟨rate, t, src⟩ ∨
      updateSlot snap key rate t src = snap := by
  unfold updateSlot
  cases hd : dictGet snap key with
  | none => exact Or.inl rfl
  | some cur =>
      by_cases hlt : pyStrLt cur.updated_at t
      · simp [hlt]
      · simp [hlt]

theorem mem_updateSlot (snap : PairsDict) (key : String) (rate : ℚ)
    (t src : String) (kv : String × PairEntry)
    (h : kv ∈ updateSlot snap key rate t src) :
    kv ∈ snap ∨ kv.2.source = src := by
  rcases updateSlot_cases snap key rate t src with h' | h'
  · rw [h'] at h
    rcases mem_dictSet _ _ _ _ h with h'' | h''
    · exact Or.inl h''
    · right
      rw [h'']
  · rw [h'] at h
    exact Or.inl h

theorem updateSlot_keys_nodup (snap : PairsDict) (key : String) (rate : ℚ)
    (t src : String) (h : (dictKeys snap).Nodup) :
    (dictKeys (updateSlot snap key rate t src)).Nodup := by
  rcases updateSlot_cases snap key rate t src with h' | h' <;> rw [h']
  · exact dictKeys_nodup_dictSet _ _ _ h
  · exact h

theorem processItems_fst_lookup (src t : String) (items : List (String × ℚ))
    (st : PairsDict × List HistoryRecord) (k : String) :
    dictGet (items.foldl (processItem src t) st).1 k =
      match lookupValid items k, dictGet st.1 k with
      | none, cur => cur
      | some q, none => some ⟨q, t, src⟩
      | some q, some cur =>
          if pyStrLt cur.updated_at t then some ⟨q, t, src⟩
          else some cur := by
  induction items generalizing st with
  | nil =>
      simp only [List.foldl_nil, lookupValid, List.filter_nil, List.find?_nil,
        Option.map_none']
  | cons i tl ih =>
      rw [List.foldl_cons]
      rw [ih (processItem src t st i)]
      by_cases hv : validItem i
      · by_cases hk : normKey i = k
        · have hstep : (processItem src t st i).1 = updateSlot st.1 k i.2 t src := by
            simp [processItem, hv, hk]
          have hlv : lookupValid (i :: tl) k = some i.2 := by
            simp [lookupValid, List.filter_cons, hv, List.find?_cons, hk]
          rw [hstep, hlv, dictGet_updateSlot_self]
          cases hcur : dictGet st.1 k with
          | none =>
              cases hl : lookupValid tl k with
              | none => simp
              | some q' => simp [pyStrLt_irrefl]
          | some cur =>
              by_cases hlt : pyStrLt cur.updated_at t
              · cases hl : lookupValid tl k with
                | none => simp [hlt]
                | some q' => simp [hlt, pyStrLt_irrefl]
              · cases hl : lookupValid tl k with
                | none => simp [hlt]
                | some q' => simp [hlt]
        · have hstep : (processItem src t st i).1 =
              updateSlot st.1 (normKey i) i.2 t src := by
            simp [processItem, hv, hk]
          have hlv : lookupValid (i :: tl) k = lookupValid tl k := by
            simp [lookupValid, List.filter_cons, hv, List.find?_cons, hk]
          rw [hstep, hlv, dictGet_updateSlot_ne _ _ _ _ _ _ hk]
      · have hstep : processItem src t st i = st := by
          simp [processItem, hv]
        have hlv : lookupValid (i :: tl) k = lookupValid tl k := by
          simp [lookupValid, List.filter_cons, hv]
        rw [hstep, hlv]

theorem processItems_snd (src t : String) (items : List (String × ℚ))
    (st : PairsDict × List HistoryRecord) :
    (items.foldl (processItem src t) st).2 =
      st.2 ++ (items.filter validItem).map
        (fun p => mkHistoryRecord (normKey p) p.2 t src) := by
  induction items generalizing st with
  | nil => simp
  | cons i tl ih =>
      by_cases hv : validItem i <;>
        simp [List.foldl_cons, processItem, hv, ih, List.filter_cons]

theorem processItems_fst_nodup (src t : String) (items : List (String × ℚ))
    (st : PairsDict × List HistoryRecord) (h : (dictKeys st.1).Nodup) :
    (dictKeys (items.foldl (processItem src t) st).1).Nodup := by
  induction items generalizing st with
  | nil => simpa
  | cons i tl ih =>
      rw [List.foldl_cons]
      apply ih
      by_cases hv : validItem i
      · simpa [processItem, hv] using
          updateSlot_keys_nodup st.1 (normKey i) i.2 t src h
      · simpa [processItem, hv] using h

theorem processItems_fst_isSome (src t : String) (items : List (String × ℚ))
    (st : PairsDict × List HistoryRecord) (k : String)
    (h : (dictGet st.1 k).isSome) :
    (dictGet (items.foldl (processItem src t) st).1 k).isSome := by
  rw [processItems_fst_lookup]
  cases hg : dictGet st.1 k with
  | none => rw [hg] at h; cases h
  | some cur =>
      cases hl : lookupValid items k with
      | none => simp
      | some q => by_cases hlt : pyStrLt cur.updated_at t <;> simp [hlt]

theorem lookupValid_isSome_of_mem (items : List (String × ℚ))
    (p : String × ℚ) (hp : p ∈ items) (hv : validItem p) :
    (lookupValid items (normKey p)).isSome := by
  induction items with
  | nil => cases hp
  | cons i tl ih =>
      rcases List.mem_cons.mp hp with rfl | hp'
      · simp [lookupValid, List.filter_cons, hv, List.find?_cons]
      · by_cases hvi : validItem i
        · by_cases hki : normKey i = normKey p
          · simp [lookupValid, List.filter_cons, hvi, List.find?_cons, hki]
          · simpa [lookupValid, List.filter_cons, hvi, List.find?_cons, hki]
              using ih hp'
        · simpa [lookupValid, List.filter_cons, hvi] using ih hp'

theorem processItems_fst_isSome_of_mem (src t : String)
    (items : List (String × ℚ)) (st : PairsDict × List HistoryRecord)
    (p : String × ℚ) (hp : p ∈ items) (hv : validItem p) :
    (dictGet (items.foldl (processItem src t) st).1 (normKey p)).isSome := by
  rw [processItems_fst_lookup]
  cases hl : lookupValid items (normKey p) with
  | none =>
      have := lookupValid_isSome_of_mem items p hp hv
      rw [hl] at this
      cases this
  | some q =>
      cases hg : dictGet st.1 (normKey p) with
      | none => simp
      | some cur => by_cases hlt : pyStrLt cur.updated_at t <;> simp [hlt]

theorem processItems_fst_sources (P : String → Prop) (src t : String)
    (items : List (String × ℚ)) (st : PairsDict × List HistoryRecord)
    (hst : ∀ kv ∈ st.1, P kv.2.source) (hsrc : P src) :
    ∀ kv ∈ (items.foldl (processItem src t) st).1, P kv.2.source := by
  induction items generalizing st with
  | nil => exact hst
  | cons i tl ih =>
      rw [List.foldl_cons]
      apply ih
      intro kv hkv
      by_cases hv : validItem i
      · simp only [processItem, if_pos hv] at hkv
        rcases mem_updateSlot _ _ _ _ _ _ hkv with h' | h'
        · exact hst kv h'
        · rw [h']
          exact hsrc
      · simp only [processItem, if_neg hv] at hkv
        exact hst kv hkv

theorem processClient_fst_nodup (c : ClientRun)
    (st : PairsDict × List HistoryRecord) (h : (dictKeys st.1).Nodup) :
    (dictKeys (processClient st c).1).Nodup := by
  cases hc : c.fetch with
  | none => simpa [processClient, hc]
  | some items =>
      simpa [processClient, hc] using processItems_fst_nodup c.name c.now_iso items st h

theorem processClient_fst_isSome (c : ClientRun)
    (st : PairsDict × List HistoryRecord) (k : String)
    (h : (dictGet st.1 k).isSome) :
    (dictGet (processClient st c).1 k).isSome := by
  cases hc : c.fetch with
  | none => simpa [processClient, hc]
  | some items =>
      simpa [processClient, hc] using
        processItems_fst_isSome c.name c.now_iso items st k h

theorem foldl_processClient_nodup (cs : List ClientRun)
    (st : PairsDict × List HistoryRecord) (h : (dictKeys st.1).Nodup) :
    (dictKeys (cs.foldl processClient st).1).Nodup := by
  induction cs generalizing st with
  | nil => simpa
  | cons c tl ih =>
      rw [List.foldl_cons]
      exact ih _ (processClient_fst_nodup c st h)

theorem foldl_processClient_isSome (cs : List ClientRun)
    (st : PairsDict × List HistoryRecord) (k : String)
    (h : (dictGet st.1 k).isSome) :
    (dictGet (cs.foldl processClient st).1 k).isSome := by
  induction cs generalizing st with
  | nil => simpa
  | cons c tl ih =>
      rw [List.foldl_cons]
      exact ih _ (processClient_fst_isSome c st k h)

theorem foldl_processClient_sources (P : String → Prop) (cs : List ClientRun)
    (st : PairsDict × List HistoryRecord)
    (hst : ∀ kv ∈ st.1, P kv.2.source)
    (hcs : ∀ c ∈ cs, c.fetch.isSome → P c.name) :
    ∀ kv ∈ (cs.foldl processClient st).1, P kv.2.source := by
  induction cs generalizing st with
  | nil => exact hst
  | cons c tl ih =>
      rw [List.foldl_cons]
      apply ih
      · cases hc : c.fetch with
        | none => simpa [processClient, hc] using hst
        | some items =>
            have hpc : processClient st c =
                items.foldl (processItem c.name c.now_iso) st := by
              simp [processClient, hc]
            rw [hpc]
            exact processItems_fst_sources P c.name c.now_iso items st hst
              (hcs c (List.mem_cons_self c tl) (by simp [hc]))
      · intro c' hc' hsome
        exact hcs c' (List.mem_cons_of_mem c hc') hsome

theorem mergedState_keys_nodup (clients : List ClientRun) :
    (dictKeys (mergedState clients).1).Nodup := by
  unfold mergedState
  exact foldl_processClient_nodup clients ([], []) (by simp [dictKeys])

theorem mergedState_sources (clients : List ClientRun) :
    ∀ kv ∈ (mergedState clients).1, kv.2.source ∈ succeededNames clients := by
  unfold mergedState
  apply foldl_processClient_sources
  · intro kv hkv
    cases hkv
  · intro c hc hsome
    unfold succeededNames
    exact List.mem_map_of_mem _ (List.mem_filter.mpr ⟨hc, by simpa using hsome⟩)

theorem mergedState_isSome_of_mem (clients : List ClientRun) (c : ClientRun)
    (hc : c ∈ clients) (items : List (String × ℚ)) (hf : c.fetch = some items)
    (p : String × ℚ) (hp : p ∈ items) (hv : validItem p) :
    (dictGet (mergedState clients).1 (normKey p)).isSome := by
  obtain ⟨l1, l2, rfl⟩ := List.append_of_mem hc
  unfold mergedState
  rw [List.foldl_append, List.foldl_cons]
  apply foldl_processClient_isSome
  have : processClient (l1.foldl processClient ([], [])) c =
      items.foldl (processItem c.name c.now_iso) (l1.foldl processClient ([], [])) := by
    simp [processClient, hf]
  rw [this]
  exact processItems_fst_isSome_of_mem c.name c.now_iso items _ p hp hv

theorem selfPair_data_ne (u : String) (x1 x2 x3 y1 y2 y3 : Char)
    (hne : ¬(x1 = y1 ∧ x2 = y2 ∧ x3 = y3)) :
    (u ++ "_" ++ u).data ≠ [x1, x2, x3, '_', y1, y2, y3] := by
  intro h
  rw [String.data_append, String.data_append] at h
  have hdata : ("_" : String).data = ['_'] := rfl
  rw [hdata] at h
  have hlen : u.data.length = 3 := by
    have hl := congrArg List.length h
    simp only [List.length_append, List.length_cons] at hl
    omega
  obtain ⟨a, b, c, habc⟩ := List.length_eq_three.mp hlen
  rw [habc] at h
  simp only [List.cons_append, List.nil_append, List.cons.injEq, and_true] at h
  obtain ⟨h1, h2, h3, _, h4, h5, h6⟩ := h
  exact hne ⟨h1.symm.trans h4, h2.symm.trans h5, h3.symm.trans h6⟩

theorem dictGet_stub_selfPair (u : String) :
    dictGet exchange_rates_stub (u ++ "_" ++ u) = none := by
  have h1 : ("EUR_USD" : String) ≠ u ++ "_" ++ u := by
    intro h
    exact selfPair_data_ne u 'E' 'U' 'R' 'U' 'S' 'D' (by decide)
      (congrArg String.data h).symm
  have h2 : ("BTC_USD" : String) ≠ u ++ "_" ++ u := by
    intro h
    exact selfPair_data_ne u 'B' 'T' 'C' 'U' 'S' 'D' (by decide)
      (congrArg String.data h).symm
  have h3 : ("RUB_USD" : String) ≠ u ++ "_" ++ u := by
    intro h
    exact selfPair_data_ne u 'R' 'U' 'B' 'U' 'S' 'D' (by decide)
      (congrArg String.data h).symm
  have h4 : ("ETH_USD" : String) ≠ u ++ "_" ++ u := by
    intro h
    exact selfPair_data_ne u 'E' 'T' 'H' 'U' 'S' 'D' (by decide)
      (congrArg String.data h).symm
  simp [exchange_rates_stub, dictGet, h1, h2, h3, h4]

theorem get_from_stub_self (u : String) : get_from_stub u u = none := by
  simp [get_from_stub, dictGet_stub_selfPair u]

theorem walletBalance_dictSet (w : WalletObj) (v : ℚ) :
    walletBalance (dictSet w "balance" (JPrim.num v)) = v := by
  simp [walletBalance, dictGet_dictSet_self]

theorem findPortfolio_savePortfolios (ps : List PortfolioData) (uid : Int)
    (w : List (String × WalletObj)) :
    findPortfolio (savePortfolios ps uid w) uid = some ⟨uid, w⟩ := by
  induction ps with
  | nil => simp [savePortfolios, findPortfolio, List.find?_cons]
  | cons p tl ih =>
      by_cases hp : p.user_id = uid
      · simp [savePortfolios, hp, findPortfolio, List.find?_cons]
      · simp only [savePortfolios, if_neg hp]
        simpa [findPortfolio, List.find?_cons, hp] using ih

/-- C1: updater fault tolerance.  For every refresh run with at least two
configured clients where some clients fail (raised `SourceUnavailable` /
`ApiRequestError` or any unexpected error) but at least one client returns
at least one valid pair, `run_update` succeeds: it persists the merged
snapshot (whose entries all come from clients whose fetch succeeded) and
appends the history records.  And for every run whose merged snapshot holds
zero pairs, `run_update` raises the aggregate `ApiRequestError` and writes
neither the snapshot file nor the history file — the prior stored state is
returned untouched. -/
theorem updater_fault_tolerance (clients : List ClientRun)
    (finished_at : String) (st : StorageState) :
    (2 ≤ clients.length →
     (∃ c ∈ clients, c.fetch = none) →
     (∃ c ∈ clients, ∃ items, c.fetch = some items ∧
        ∃ p ∈ items, validItem p) →
     ∃ snap, (run_update clients finished_at st).1 = .ok snap ∧
       (run_update clients finished_at st).2 =
         ⟨some snap, st.history ++ (mergedState clients).2⟩ ∧
       snap.pairs = (mergedState clients).1 ∧ snap.pairs ≠ [] ∧
       ∀ kv ∈ snap.pairs, kv.2.source ∈ succeededNames clients) ∧
    ((mergedState clients).1 = [] →
      run_update clients finished_at st =
        (.error (.apiRequestError
          "Не удалось получить курсы ни от одного источника."), st)) := by
  constructor
  · intro _ _ hsucc
    obtain ⟨c, hc, items, hf, p, hp, hv⟩ := hsucc
    have hsome := mergedState_isSome_of_mem clients c hc items hf p hp hv
    have hne : (mergedState clients).1 ≠ [] := by
      intro h0
      rw [h0] at hsome
      simp [dictGet] at hsome
    refine ⟨⟨(mergedState clients).1, finished_at⟩, ?_, ?_, rfl, hne,
      mergedState_sources clients⟩
    · simp [run_update, hne]
    · simp [run_update, hne]
  · intro h0
    simp [run_update, h0]

/-- Witness for C1: a concrete run where CoinGecko fails and the other
client supplies one valid pair still succeeds with a non-empty snapshot; a
concrete run where both clients fail leaves the storage state untouched. -/
theorem updater_fault_tolerance_witness :
    (∃ snap,
      (run_update
        [⟨"CoinGecko", none, "2024-01-02T00:00:00Z"⟩,
         ⟨"ExchangeRate-API", some [("EUR_USD", 2)],
           "2024-01-02T00:00:01Z"⟩]
        "2024-01-02T00:00:02Z" ⟨none, []⟩).1 = .ok snap ∧
      snap.pairs ≠ []) ∧
    run_update
        [⟨"CoinGecko", none, "2024-01-02T00:00:00Z"⟩,
         ⟨"ExchangeRate-API", none, "2024-01-02T00:00:01Z"⟩]
        "2024-01-02T00:00:02Z" ⟨none, []⟩ =
      (.error (.apiRequestError
        "Не удалось получить курсы ни от одного источника."), ⟨none, []⟩) := by
  constructor
  · obtain ⟨snap, hok, _, _, hne, _⟩ :=
      (updater_fault_tolerance
        [⟨"CoinGecko", none, "2024-01-02T00:00:00Z"⟩,
         ⟨"ExchangeRate-API", some [("EUR_USD", 2)],
           "2024-01-02T00:00:01Z"⟩]
        "2024-01-02T00:00:02Z" ⟨none, []⟩).1
      (by decide)
      ⟨⟨"CoinGecko", none, "2024-01-02T00:00:00Z"⟩, by simp, rfl⟩
      ⟨⟨"ExchangeRate-API", some [("EUR_USD", 2)], "2024-01-02T00:00:01Z"⟩,
        by simp, [("EUR_USD", 2)], rfl,
        ("EUR_USD", 2), by simp, by decide⟩
    exact ⟨snap, hok, hne⟩
  · exact (updater_fault_tolerance _ _ _).2 (by decide)

/-- C2 counterexample: two clients overlap on `BTC_USD` within the same
`utc_now_iso` second (the realistic case the spec itself notes).  The
persisted snapshot keeps the FIRST-processed source's entry (source `"A"`,
rate 1), not the last-processed one, refuting "the last-processed source
wins that entry's slot". -/
theorem updater_merge_last_wins_cex :
    (run_update
       [⟨"A", some [("BTC_USD", 1)], "2024-01-01T00:00:00Z"⟩,
        ⟨"B", some [("BTC_USD", 2)], "2024-01-01T00:00:00Z"⟩]
       "2024-01-01T00:00:01Z" ⟨none, []⟩).2.snapshot =
      some ⟨[("BTC_USD", ⟨1, "2024-01-01T00:00:00Z", "A"⟩)],
        "2024-01-01T00:00:01Z"⟩ := by
  rfl

/-- C2 (amended): for two successful clients overlapping on a pair key, the
snapshot has no duplicate keys; the last-processed client wins the slot only
when its fetch timestamp is strictly newer (code-point order on the ISO
strings), while on equal timestamps the first-processed client's entry is
retained; and the history receives exactly one record per (source, pair)
valid observation, including observations that did not win the slot. -/
theorem updater_merge_amended (c1 c2 : ClientRun) (r1 r2 : List (String × ℚ))
    (k : String) (q1 q2 : ℚ)
    (h1 : c1.fetch = some r1) (h2 : c2.fetch = some r2)
    (hq1 : lookupValid r1 k = some q1) (hq2 : lookupValid r2 k = some q2) :
    (dictKeys (mergedState [c1, c2]).1).Nodup ∧
    (pyStrLt c1.now_iso c2.now_iso = true →
      dictGet (mergedState [c1, c2]).1 k = some ⟨q2, c2.now_iso, c2.name⟩) ∧
    (c1.now_iso = c2.now_iso →
      dictGet (mergedState [c1, c2]).1 k = some ⟨q1, c1.now_iso, c1.name⟩) ∧
    (mergedState [c1, c2]).2 =
      (r1.filter validItem).map
        (fun p => mkHistoryRecord (normKey p) p.2 c1.now_iso c1.name) ++
      (r2.filter validItem).map
        (fun p => mkHistoryRecord (normKey p) p.2 c2.now_iso c2.name) := by
  have hm : mergedState [c1, c2] =
      r2.foldl (processItem c2.name c2.now_iso)
        (r1.foldl (processItem c1.name c1.now_iso) ([], [])) := by
    simp [mergedState, processClient, h1, h2]
  have hfst1 : dictGet (r1.foldl (processItem c1.name c1.now_iso) ([], [])).1 k =
      some ⟨q1, c1.now_iso, c1.name⟩ := by
    rw [processItems_fst_lookup, hq1]
    rfl
  refine ⟨mergedState_keys_nodup _, ?_, ?_, ?_⟩
  · intro hlt
    rw [hm, processItems_fst_lookup, hq2, hfst1]
    simp [hlt]
  · intro heq
    rw [hm, processItems_fst_lookup, hq2, hfst1]
    simp [heq, pyStrLt_irrefl]
  · rw [hm, processItems_snd, processItems_snd]
    simp

/-- Witness for C2 (amended) at a run with strictly increasing timestamps:
the later client does win, and both observations land in the history. -/
theorem updater_merge_amended_witness :
    dictGet (mergedState
      [⟨"A", some [("BTC_USD", 1)], "2024-01-01T00:00:00Z"⟩,
       ⟨"B", some [("BTC_USD", 2)], "2024-01-01T00:00:05Z"⟩]).1 "BTC_USD" =
      some ⟨2, "2024-01-01T00:00:05Z", "B"⟩ ∧
    (mergedState
      [⟨"A", some [("BTC_USD", 1)], "2024-01-01T00:00:00Z"⟩,
       ⟨"B", some [("BTC_USD", 2)], "2024-01-01T00:00:05Z"⟩]).2.length = 2 := by
  obtain ⟨_, hwin, _, hhist⟩ :=
    updater_merge_amended
      ⟨"A", some [("BTC_USD", 1)], "2024-01-01T00:00:00Z"⟩
      ⟨"B", some [("BTC_USD", 2)], "2024-01-01T00:00:05Z"⟩
      [("BTC_USD", 1)] [("BTC_USD", 2)] "BTC_USD" 1 2 rfl rfl (by rfl) (by rfl)
  refine ⟨hwin (by decide), ?_⟩
  rw [hhist]
  rfl

/-- C3 counterexample: `get_rate` has no same-code shortcut.  With an empty
snapshot, `get_rate("USD", "USD")` does not return rate `1.0`; it follows
the ordinary lookup path and fails with the `RateUnavailable`-style
`ValueError`. -/
theorem get_rate_self_pair_cex :
    get_rate ⟨2024, 1, 1, 0, 0, 0, none⟩ [] "USD" "USD" =
      .error (.valueError "Курс USD→USD недоступен. Повторите попытку позже.") := by
  rfl

/-- C3 (amended): `get_rate` treats a pair of equal codes like any other
pair — it consults the snapshot and then the fallback table, and since the
fallback table contains no self-pair key, with no cached entry the lookup
fails with `ValueError` instead of returning `1.0`. -/
theorem get_rate_no_self_shortcut (now : PyDateTime) (a : String)
    (h : pyStrip a ≠ "") :
    get_rate now [] a a =
      .error (.valueError ("Курс " ++ pyUpper (pyStrip a) ++ "→" ++
        pyUpper (pyStrip a) ++ " недоступен. Повторите попытку позже.")) := by
  have hc : cacheCheck now []
      (pyUpper (pyStrip a) ++ "_" ++ pyUpper (pyStrip a)) = .ok none := rfl
  have hs : get_from_stub (pyUpper (pyStrip a)) (pyUpper (pyStrip a)) = none :=
    get_from_stub_self _
  simp [get_rate, h, hc, hs]

/-- Witness for C3 (amended) at the concrete code `"EUR"`. -/
theorem get_rate_no_self_shortcut_witness :
    get_rate ⟨2024, 1, 1, 0, 0, 0, none⟩ [] "EUR" "EUR" =
      .error (.valueError ("Курс " ++ pyUpper (pyStrip "EUR") ++ "→" ++
        pyUpper (pyStrip "EUR") ++ " недоступен. Повторите попытку позже.")) :=
  get_rate_no_self_shortcut ⟨2024, 1, 1, 0, 0, 0, none⟩ "EUR" (by decide)

/-- C4 counterexample: a stored `updated_at` with the trailing `Z` that the
updater itself writes is not "tolerated by treating it as `+00:00`".  The
spec-worded check calls the entry written at the current instant fresh; the
source's `_is_fresh` parses it as offset-aware and the subtraction from the
naive `datetime.now()` raises `TypeError`, so `get_rate` crashes instead of
serving or resynthesizing the rate. -/
theorem is_fresh_z_suffix_cex :
    spec_is_fresh ⟨2024, 1, 1, 0, 0, 0, none⟩ "2024-01-01T00:00:00Z" = true ∧
    is_fresh ⟨2024, 1, 1, 0, 0, 0, none⟩ "2024-01-01T00:00:00Z" = .error () ∧
    get_rate ⟨2024, 1, 1, 0, 0, 0, none⟩
      [("EUR_USD", JVal.obj [("rate", JPrim.num 1),
        ("updated_at", JPrim.str "2024-01-01T00:00:00Z")])] "EUR" "USD" =
      .error .typeError := by
  refine ⟨by decide, by rfl, by rfl⟩

/-- C4 (amended): in `get_rate`'s freshness check, a stored timestamp that
parses as naive is fresh iff `now − parsed ≤ 300` seconds, and a malformed
timestamp yields "not fresh" rather than an error; but a timestamp that
parses as offset-aware (a trailing `Z` or an explicit offset) makes the
check raise `TypeError`, because the naive `datetime.now()` cannot be
subtracted from an aware datetime. -/
theorem is_fresh_amended (now : PyDateTime) (s : String)
    (hn : now.tzoff = none) :
    (fromisoformat s = none → is_fresh now s = .ok false) ∧
    (∀ ts, fromisoformat s = some ts → ts.tzoff = none →
      is_fresh now s = .ok (decide (toSec now - toSec ts ≤ 300))) ∧
    (∀ ts, fromisoformat s = some ts → ts.tzoff ≠ none →
      is_fresh now s = .error ()) := by
  refine ⟨?_, ?_, ?_⟩
  · intro h
    simp [is_fresh, h]
  · intro ts hts htz
    simp [is_fresh, hts, pySub, hn, htz]
  · intro ts hts htz
    cases ho : ts.tzoff with
    | none => exact absurd ho htz
    | some o => simp [is_fresh, hts, pySub, hn, ho]

/-- Witness for C4 (amended): a naive timestamp exactly at the 300-second
TTL boundary is fresh; a malformed one is reported "not fresh" without an
error; an offset-aware one raises. -/
theorem is_fresh_amended_witness :
    is_fresh ⟨2024, 1, 1, 0, 5, 0, none⟩ "2024-01-01T00:00:00" = .ok true ∧
    is_fresh ⟨2024, 1, 1, 0, 5, 0, none⟩ "not-a-timestamp" = .ok false ∧
    is_fresh ⟨2024, 1, 1, 0, 5, 0, none⟩ "2024-01-01T00:00:00+00:00" =
      .error () := by
  obtain ⟨hmal, hnaive, haware⟩ :=
    is_fresh_amended ⟨2024, 1, 1, 0, 5, 0, none⟩ "2024-01-01T00:00:00" rfl
  refine ⟨?_, ?_, ?_⟩
  · rw [hnaive ⟨2024, 1, 1, 0, 0, 0, none⟩ (by decide) rfl]
    rfl
  · exact (is_fresh_amended ⟨2024, 1, 1, 0, 5, 0, none⟩ "not-a-timestamp"
      rfl).1 (by decide)
  · exact (is_fresh_amended ⟨2024, 1, 1, 0, 5, 0, none⟩
      "2024-01-01T00:00:00+00:00" rfl).2.2 ⟨2024, 1, 1, 0, 0, 0, some 0⟩
      (by decide) (by decide)

/-- C5 counterexample: on a fallback synthesis the pair entry written back
is `{"rate", "updated_at"}` WITHOUT a per-entry `"source"` field — not "the
same shape as an Updater-produced entry with `source = \"Stub\"`"; the
string `"Stub"` instead lands in a top-level `"source"` key of the whole
rates document (and an updater entry does carry a `source` field inside the
entry). -/
theorem get_rate_stub_write_shape_cex :
    get_rate ⟨2024, 1, 1, 0, 0, 0, none⟩ [] "EUR" "USD" =
      .ok ⟨10786 / 10000, false,
        some [("EUR_USD", JVal.obj [("rate", JPrim.num (10786 / 10000)),
                ("updated_at", JPrim.str "2024-01-01T00:00:00")]),
              ("source", JVal.prim (JPrim.str "Stub")),
              ("last_refresh", JVal.prim (JPrim.str "2024-01-01T00:00:00"))]⟩ ∧
    dictGet [("rate", JPrim.num (10786 / 10000)),
             ("updated_at", JPrim.str "2024-01-01T00:00:00")] "source" = none ∧
    (⟨10786 / 10000, "2024-01-01T00:00:00", "Stub"⟩ : PairEntry).source =
      "Stub" := by
  exact ⟨rfl, rfl, rfl⟩

/-- C5 (amended): for a stale-or-missing pair, `get_rate` returns
`table[A_B]` when the direct key is in the fallback table, else
`1/table[B_A]` when only the inverse is, and fails with `RateUnavailable`
when neither is; on synthesis it writes back a pair entry holding only
`rate` and `updated_at` (no `source` field inside the entry), sets the
top-level keys `"source" = "Stub"` and `"last_refresh" = now`, and persists
the document. -/
theorem get_rate_stub_synthesis (now : PyDateTime) (rates : RatesDict)
    (fc tc : String)
    (h1 : pyStrip fc ≠ "") (h2 : pyStrip tc ≠ "")
    (hmiss : cacheCheck now rates
      (pyUpper (pyStrip fc) ++ "_" ++ pyUpper (pyStrip tc)) = .ok none)
    (hks : pyUpper (pyStrip fc) ++ "_" ++ pyUpper (pyStrip tc) ≠ "source")
    (hkl : pyUpper (pyStrip fc) ++ "_" ++ pyUpper (pyStrip tc) ≠
      "last_refresh") :
    (∀ q, dictGet exchange_rates_stub
        (pyUpper (pyStrip fc) ++ "_" ++ pyUpper (pyStrip tc)) = some q →
      ∃ w, get_rate now rates fc tc = .ok ⟨q, false, some w⟩ ∧
        dictGet w (pyUpper (pyStrip fc) ++ "_" ++ pyUpper (pyStrip tc)) =
          some (JVal.obj [("rate", JPrim.num q),
            ("updated_at", JPrim.str (isoformat now))]) ∧
        dictGet w "source" = some (JVal.prim (JPrim.str "Stub")) ∧
        dictGet w "last_refresh" =
          some (JVal.prim (JPrim.str (isoformat now)))) ∧
    (dictGet exchange_rates_stub
        (pyUpper (pyStrip fc) ++ "_" ++ pyUpper (pyStrip tc)) = none →
     ∀ q, dictGet exchange_rates_stub
        (pyUpper (pyStrip tc) ++ "_" ++ pyUpper (pyStrip fc)) = some q →
      0 < q →
      ∃ w, get_rate now rates fc tc = .ok ⟨1 / q, false, some w⟩ ∧
        dictGet w (pyUpper (pyStrip fc) ++ "_" ++ pyUpper (pyStrip tc)) =
          some (JVal.obj [("rate", JPrim.num (1 / q)),
            ("updated_at", JPrim.str (isoformat now))]) ∧
        dictGet w "source" = some (JVal.prim (JPrim.str "Stub")) ∧
        dictGet w "last_refresh" =
          some (JVal.prim (JPrim.str (isoformat now)))) ∧
    (dictGet exchange_rates_stub
        (pyUpper (pyStrip fc) ++ "_" ++ pyUpper (pyStrip tc)) = none →
     dictGet exchange_rates_stub
        (pyUpper (pyStrip tc) ++ "_" ++ pyUpper (pyStrip fc)) = none →
      get_rate now rates fc tc =
        .error (.valueError ("Курс " ++ pyUpper (pyStrip fc) ++ "→" ++
          pyUpper (pyStrip tc) ++ " недоступен. Повторите попытку позже."))) := by
  refine ⟨?_, ?_, ?_⟩
  · intro q hq
    refine ⟨dictSet (dictSet (dictSet rates
        (pyUpper (pyStrip fc) ++ "_" ++ pyUpper (pyStrip tc))
        (JVal.obj [("rate", JPrim.num q),
          ("updated_at", JPrim.str (isoformat now))]))
        "source" (JVal.prim (JPrim.str "Stub")))
        "last_refresh" (JVal.prim (JPrim.str (isoformat now))), ?_, ?_, ?_, ?_⟩
    · simp [get_rate, h1, h2, hmiss, get_from_stub, hq]
    · rw [dictGet_dictSet_ne _ _ _ _ (Ne.symm hkl),
        dictGet_dictSet_ne _ _ _ _ (Ne.symm hks), dictGet_dictSet_self]
    · rw [dictGet_dictSet_ne _ _ _ _ (by decide), dictGet_dictSet_self]
    · rw [dictGet_dictSet_self]
  · intro hdir q hq hpos
    refine ⟨dictSet (dictSet (dictSet rates
        (pyUpper (pyStrip fc) ++ "_" ++ pyUpper (pyStrip tc))
        (JVal.obj [("rate", JPrim.num (1 / q)),
          ("updated_at", JPrim.str (isoformat now))]))
        "source" (JVal.prim (JPrim.str "Stub")))
        "last_refresh" (JVal.prim (JPrim.str (isoformat now))), ?_, ?_, ?_, ?_⟩
    · simp [get_rate, h1, h2, hmiss, get_from_stub, hdir, hq, hpos]
    · rw [dictGet_dictSet_ne _ _ _ _ (Ne.symm hkl),
        dictGet_dictSet_ne _ _ _ _ (Ne.symm hks), dictGet_dictSet_self]
    · rw [dictGet_dictSet_ne _ _ _ _ (by decide), dictGet_dictSet_self]
    · rw [dictGet_dictSet_self]
  · intro hdir hrev
    simp [get_rate, h1, h2, hmiss, get_from_stub, hdir, hrev]

/-- Witness for C5 (amended): the direct-hit case at `EUR/USD` over an empty
snapshot. -/
theorem get_rate_stub_synthesis_witness :
    ∃ w, get_rate ⟨2024, 1, 1, 0, 0, 0, none⟩ [] "EUR" "USD" =
      .ok ⟨10786 / 10000, false, some w⟩ ∧
      dictGet w "source" = some (JVal.prim (JPrim.str "Stub")) := by
  obtain ⟨w, hok, _, hsrc, _⟩ :=
    (get_rate_stub_synthesis ⟨2024, 1, 1, 0, 0, 0, none⟩ [] "EUR" "USD"
      (by decide) (by decide) rfl (by decide) (by decide)).1
      (10786 / 10000) rfl
  exact ⟨w, hok, hsrc⟩

/-- C6 counterexample: the pair `RUB/USD` is resolvable only via the
fallback table — `get_rate` prices it at the stub rate, but a buy of the
very same pair fails with "Не удалось получить курс", because
`buy_currency` reads the rates file directly and never invokes the
TTL/fallback policy. -/
theorem trade_bypasses_lookup_cex :
    (get_rate ⟨2024, 1, 1, 0, 0, 0, none⟩ [] "RUB" "USD").map GetRateRes.rate =
      .ok (1016 / 100000) ∧
    (buy_currency (some 1) [⟨1, [("RUB", [("balance", JPrim.num 0)])]⟩] []
      "RUB" 5 "USD").1 =
      .error (.valueError "Не удалось получить курс для RUB→USD") := by
  exact ⟨rfl, rfl⟩

/-- C6 (amended): `buy_currency` and `sell_currency` price directly off the
rates document: they accept any positive numeric `"rate"` of the direct
pair entry with no freshness check (`updated_at` is never consulted) and no
fallback synthesis — a pair absent from the document fails even when the
fallback table could resolve it, so buy/sell pricing is not the `get_rate`
policy. -/
theorem trade_reads_rates_directly
    (uid : Int) (portfolios : List PortfolioData) (rates : RatesDict)
    (currency base : String) (amount : ℚ) (fields : List (String × JPrim))
    (r : ℚ)
    (hc : pyStrip currency ≠ "") (ha : 0 < amount) :
    (dictGet rates (pyUpper (pyStrip currency) ++ "_" ++ pyUpper base) =
        some (JVal.obj fields) →
     dictGet fields "rate" = some (JPrim.num r) → 0 < r →
      (buy_currency (some uid) portfolios rates currency amount base).1.map
        TradeRes.rate = .ok r) ∧
    (∀ w, dictGet ((findPortfolio portfolios uid).elim []
        (fun p => p.wallets)) (pyUpper (pyStrip currency)) = some w →
     amount ≤ walletBalance w →
     dictGet rates (pyUpper (pyStrip currency) ++ "_" ++ pyUpper base) =
        some (JVal.obj fields) →
     dictGet fields "rate" = some (JPrim.num r) → 0 < r →
      (sell_currency (some uid) portfolios rates currency amount base).1.map
        TradeRes.rate = .ok r) ∧
    (dictGet rates (pyUpper (pyStrip currency) ++ "_" ++ pyUpper base) =
        none →
      (buy_currency (some uid) portfolios rates currency amount base).1 =
        .error (.valueError ("Не удалось получить курс для " ++
          pyUpper (pyStrip currency) ++ "→" ++ pyUpper base))) := by
  have ha' : ¬ amount ≤ 0 := not_le.mpr ha
  refine ⟨?_, ?_, ?_⟩
  · intro hrates hrate hpos
    simp [buy_currency, hc, ha', ratesPairRate, hrates, hrate, hpos,
      Except.map]
  · intro w hw hbal hrates hrate hpos
    have hbal' : ¬ walletBalance w < amount := not_lt.mpr hbal
    simp [sell_currency, hc, ha', hw, hbal', ratesPairRate, hrates, hrate,
      hpos, Except.map]
  · intro hnone
    simp [buy_currency, hc, ha', ratesPairRate, hnone]

/-- Witness for C6 (amended): a rate entry with no `updated_at` at all is
still accepted by `buy_currency`; a pair missing from the document fails. -/
theorem trade_reads_rates_directly_witness :
    (buy_currency (some 1) [] [("BTC_USD", JVal.obj [("rate", JPrim.num 42)])]
      "BTC" 3 "USD").1.map TradeRes.rate = .ok 42 ∧
    (buy_currency (some 1) [] [] "RUB" 5 "USD").1 =
      .error (.valueError ("Не удалось получить курс для " ++
        pyUpper (pyStrip "RUB") ++ "→" ++ pyUpper "USD")) := by
  constructor
  · exact (trade_reads_rates_directly 1 [] [("BTC_USD",
      JVal.obj [("rate", JPrim.num 42)])] "BTC" "USD" 3
      [("rate", JPrim.num 42)] 42 (by decide) (by decide)).1 rfl rfl
      (by decide)
  · exact (trade_reads_rates_directly 1 [] [] "RUB" "USD" 5 [] 1 (by decide)
      (by decide)).2.2 rfl

/-- C7 counterexample: selling 50 BTC against a 10 BTC wallet raises a
plain `ValueError` — not the typed `InsufficientFundsError` defined in
`core/exceptions.py` — although the message does carry available `10.0000`
and required `50.0000`; the stored portfolios are untouched. -/
theorem sell_insufficient_type_cex :
    sell_currency (some 1) [⟨1, [("BTC", [("balance", JPrim.num 10)])]⟩] []
      "BTC" 50 "USD" =
      (.error (.valueError
        "Недостаточно средств: доступно 10.0000 BTC, требуется 50.0000 BTC"),
       [⟨1, [("BTC", [("balance", JPrim.num 10)])]⟩]) ∧
    (PyErr.valueError
        "Недостаточно средств: доступно 10.0000 BTC, требуется 50.0000 BTC" ≠
      PyErr.insufficientFundsError "10.0000" "50.0000" "BTC") := by
  exact ⟨rfl, by decide⟩

/-- C7 (amended): for every sell whose wallet balance is below the
requested amount, `sell_currency` fails with a plain `ValueError` whose
message carries the available and required amounts formatted to 4 decimals
for the crypto codes and 2 otherwise, and the stored portfolios are
unchanged. -/
theorem sell_insufficient_funds (uid : Int)
    (portfolios : List PortfolioData) (rates : RatesDict)
    (currency base : String) (amount : ℚ) (w : WalletObj)
    (hc : pyStrip currency ≠ "") (ha : 0 < amount)
    (hw : dictGet ((findPortfolio portfolios uid).elim []
      (fun p => p.wallets)) (pyUpper (pyStrip currency)) = some w)
    (hb : walletBalance w < amount) :
    sell_currency (some uid) portfolios rates currency amount base =
      (.error (.valueError ("Недостаточно средств: доступно " ++
        fmt_bal (pyUpper (pyStrip currency)) (walletBalance w) ++ " " ++
        pyUpper (pyStrip currency) ++ ", требуется " ++
        fmt_bal (pyUpper (pyStrip currency)) amount ++ " " ++
        pyUpper (pyStrip currency))), portfolios) := by
  have ha' : ¬ amount ≤ 0 := not_le.mpr ha
  simp [sell_currency, hc, ha', hw, hb]

/-- Witness for C7 (amended): the concrete 50-vs-10 BTC sell, with the
formatted amounts evaluated. -/
theorem sell_insufficient_funds_witness :
    sell_currency (some 1) [⟨1, [("BTC", [("balance", JPrim.num 10)])]⟩] []
      "BTC" 50 "USD" =
      (.error (.valueError ("Недостаточно средств: доступно " ++
        fmt_bal (pyUpper (pyStrip "BTC")) (walletBalance
          [("balance", JPrim.num 10)]) ++ " " ++ pyUpper (pyStrip "BTC") ++
        ", требуется " ++ fmt_bal (pyUpper (pyStrip "BTC")) 50 ++ " " ++
        pyUpper (pyStrip "BTC"))),
       [⟨1, [("BTC", [("balance", JPrim.num 10)])]⟩]) ∧
    fmt_bal "BTC" 10 = "10.0000" ∧ fmt_bal "BTC" 50 = "50.0000" := by
  refine ⟨sell_insufficient_funds 1
    [⟨1, [("BTC", [("balance", JPrim.num 10)])]⟩] [] "BTC" "USD" 50
    [("balance", JPrim.num 10)] (by decide) (by decide) rfl (by decide),
    rfl, rfl⟩

/-- C8 counterexample: `RUB` does not resolve in the Currency registry
(`get_currency` rejects it), yet `get_rate` happily serves `RUB/USD` from
the fallback table instead of failing with `UnknownCurrency` — `get_rate`
performs no registry validation at all. -/
theorem get_rate_skips_registry_cex :
    get_currency "RUB" = .error (.currencyNotFoundError "RUB") ∧
    (get_rate ⟨2024, 1, 1, 0, 0, 0, none⟩ [] "RUB" "USD").map
      GetRateRes.rate = .ok (1016 / 100000) := by
  exact ⟨rfl, rfl⟩

/-- C8 (amended): `get_rate` validates only that the two codes are
non-blank strings; it never consults the Currency registry, and every error
it raises is a plain `ValueError` or the freshness-check `TypeError` —
never `CurrencyNotFoundError` (`UnknownCurrency`). -/
theorem get_rate_error_kinds (now : PyDateTime) (rates : RatesDict)
    (fc tc : String) (e : PyErr)
    (h : get_rate now rates fc tc = .error e) :
    (∃ msg, e = .valueError msg) ∨ e = .typeError := by
  by_cases h1 : pyStrip fc = ""
  · rw [get_rate, if_pos h1] at h
    injection h with h'
    exact Or.inl ⟨_, h'.symm⟩
  by_cases h2 : pyStrip tc = ""
  · rw [get_rate, if_neg h1, if_pos h2] at h
    injection h with h'
    exact Or.inl ⟨_, h'.symm⟩
  simp only [get_rate, if_neg h1, if_neg h2] at h
  split at h
  · injection h with h'
    exact Or.inr h'.symm
  · cases h
  · split at h
    · injection h with h'
      exact Or.inl ⟨_, h'.symm⟩
    · cases h

/-- Witness for C8 (amended): the error for a code unknown to both the
cache and the fallback table is a `ValueError`. -/
theorem get_rate_error_kinds_witness :
    (∃ msg, PyErr.valueError
        "Курс ZZZ→USD недоступен. Повторите попытку позже." =
      PyErr.valueError msg) ∨
    PyErr.valueError "Курс ZZZ→USD недоступен. Повторите попытку позже." =
      PyErr.typeError :=
  get_rate_error_kinds ⟨2024, 1, 1, 0, 0, 0, none⟩ [] "ZZZ" "USD"
    (.valueError "Курс ZZZ→USD недоступен. Повторите попытку позже.") rfl

/-- C9: `buy_currency` persists the increased balance before the rates file
is consulted, so when the pair has no valid rate the operation raises, yet
the stored portfolio already holds the increase; `sell_currency`, by
contrast, persists only after the rate check, so the same failure leaves
the stored portfolios unchanged. -/
theorem buy_persists_before_rate_lookup (uid : Int)
    (portfolios : List PortfolioData) (rates : RatesDict)
    (currency base : String) (amount : ℚ)
    (hc : pyStrip currency ≠ "") (ha : 0 < amount) :
    (ratesPairRate rates
        (pyUpper (pyStrip currency) ++ "_" ++ pyUpper base) = none →
      (buy_currency (some uid) portfolios rates currency amount base).1 =
        .error (.valueError ("Не удалось получить курс для " ++
          pyUpper (pyStrip currency) ++ "→" ++ pyUpper base)) ∧
      balanceIn
          (buy_currency (some uid) portfolios rates currency amount base).2
          uid (pyUpper (pyStrip currency)) =
        some ((balanceIn portfolios uid (pyUpper (pyStrip currency))).getD 0 +
          amount)) ∧
    (∀ w, dictGet ((findPortfolio portfolios uid).elim []
        (fun p => p.wallets)) (pyUpper (pyStrip currency)) = some w →
      amount ≤ walletBalance w →
      ratesPairRate rates
        (pyUpper (pyStrip currency) ++ "_" ++ pyUpper base) = none →
      sell_currency (some uid) portfolios rates currency amount base =
        (.error (.valueError ("Не удалось получить курс для " ++
          pyUpper (pyStrip currency) ++ "→" ++ pyUpper base)), portfolios)) := by
  have ha' : ¬ amount ≤ 0 := not_le.mpr ha
  constructor
  · intro hrate
    constructor
    · simp [buy_currency, hc, ha', hrate]
    · cases hfp : findPortfolio portfolios uid with
      | none =>
          simp [buy_currency, hc, ha', hrate, balanceIn, hfp, dictGet,
            findPortfolio_savePortfolios, dictGet_dictSet_self,
            walletBalance_dictSet, walletBalance]
      | some p =>
          cases hw : dictGet p.wallets (pyUpper (pyStrip currency)) with
          | none =>
              simp [buy_currency, hc, ha', hrate, balanceIn, hfp, hw,
                findPortfolio_savePortfolios, dictGet_dictSet_self,
                walletBalance_dictSet, walletBalance, dictGet]
          | some w0 =>
              simp [buy_currency, hc, ha', hrate, balanceIn, hfp, hw,
                findPortfolio_savePortfolios, dictGet_dictSet_self,
                walletBalance_dictSet]
  · intro w hw hbal hrate
    have hbal' : ¬ walletBalance w < amount := not_lt.mpr hbal
    simp [sell_currency, hc, ha', hw, hbal', hrate]

/-- Witness for C9: buying RUB with no rate entry fails but leaves the
increased balance persisted; the same sell failure leaves storage
unchanged. -/
theorem buy_persists_before_rate_lookup_witness :
    balanceIn (buy_currency (some 1)
        [⟨1, [("RUB", [("balance", JPrim.num 10)])]⟩] [] "RUB" 5 "USD").2 1
        (pyUpper (pyStrip "RUB")) =
      some ((balanceIn [⟨1, [("RUB", [("balance", JPrim.num 10)])]⟩] 1
        (pyUpper (pyStrip "RUB"))).getD 0 + 5) ∧
    sell_currency (some 1) [⟨1, [("RUB", [("balance", JPrim.num 10)])]⟩] []
        "RUB" 5 "USD" =
      (.error (.valueError ("Не удалось получить курс для " ++
        pyUpper (pyStrip "RUB") ++ "→" ++ pyUpper "USD")),
       [⟨1, [("RUB", [("balance", JPrim.num 10)])]⟩]) := by
  obtain ⟨hbuy, hsell⟩ :=
    buy_persists_before_rate_lookup 1
      [⟨1, [("RUB", [("balance", JPrim.num 10)])]⟩] [] "RUB" "USD" 5
      (by decide) (by decide)
  exact ⟨(hbuy rfl).2,
    hsell [("balance", JPrim.num 10)] rfl (by decide) rfl⟩

/-- C10: a successful sell deducts the sold amount from the currency's
wallet, but the revenue is credited only when a base-currency wallet
already exists; when none does, the revenue is silently dropped and no base
wallet is created in the persisted portfolios. -/
theorem sell_no_base_wallet_drops_revenue (uid : Int)
    (portfolios : List PortfolioData) (rates : RatesDict)
    (currency base : String) (amount r : ℚ) (w : WalletObj)
    (fields : List (String × JPrim))
    (hc : pyStrip currency ≠ "") (ha : 0 < amount)
    (hw : dictGet ((findPortfolio portfolios uid).elim []
      (fun p => p.wallets)) (pyUpper (pyStrip currency)) = some w)
    (hbal : amount ≤ walletBalance w)
    (hbase : dictGet ((findPortfolio portfolios uid).elim []
      (fun p => p.wallets)) (pyUpper base) = none)
    (hrates : dictGet rates
      (pyUpper (pyStrip currency) ++ "_" ++ pyUpper base) =
      some (JVal.obj fields))
    (hrate : dictGet fields "rate" = some (JPrim.num r)) (hpos : 0 < r) :
    (sell_currency (some uid) portfolios rates currency amount base).1 =
      .ok ⟨r, walletBalance w, walletBalance w - amount, amount * r⟩ ∧
    balanceIn
        (sell_currency (some uid) portfolios rates currency amount base).2
        uid (pyUpper (pyStrip currency)) =
      some (walletBalance w - amount) ∧
    balanceIn
        (sell_currency (some uid) portfolios rates currency amount base).2
        uid (pyUpper base) = none := by
  have ha' : ¬ amount ≤ 0 := not_le.mpr ha
  have hbal' : ¬ walletBalance w < amount := not_lt.mpr hbal
  have hne : pyUpper (pyStrip currency) ≠ pyUpper base := by
    intro heq
    rw [heq, hbase] at hw
    cases hw
  refine ⟨?_, ?_, ?_⟩
  · simp [sell_currency, hc, ha', hw, hbal', ratesPairRate, hrates, hrate,
      hpos, dictGet_dictSet_ne _ _ _ _ hne, hbase]
  · simp [sell_currency, hc, ha', hw, hbal', ratesPairRate, hrates, hrate,
      hpos, dictGet_dictSet_ne _ _ _ _ hne, hbase, balanceIn,
      findPortfolio_savePortfolios, dictGet_dictSet_self,
      walletBalance_dictSet]
  · simp [sell_currency, hc, ha', hw, hbal', ratesPairRate, hrates, hrate,
      hpos, dictGet_dictSet_ne _ _ _ _ hne, hbase, balanceIn,
      findPortfolio_savePortfolios]

/-- Witness for C10: selling 4 BTC at rate 3 against a portfolio without a
USD wallet deducts the 4 BTC but credits no one — no USD wallet appears. -/
theorem sell_no_base_wallet_drops_revenue_witness :
    balanceIn (sell_currency (some 1)
        [⟨1, [("BTC", [("balance", JPrim.num 10)])]⟩]
        [("BTC_USD", JVal.obj [("rate", JPrim.num 3)])] "BTC" 4 "USD").2 1
        (pyUpper (pyStrip "BTC")) =
      some (walletBalance [("balance", JPrim.num 10)] - 4) ∧
    balanceIn (sell_currency (some 1)
        [⟨1, [("BTC", [("balance", JPrim.num 10)])]⟩]
        [("BTC_USD", JVal.obj [("rate", JPrim.num 3)])] "BTC" 4 "USD").2 1
        (pyUpper "USD") = none := by
  obtain ⟨_, h2, h3⟩ :=
    sell_no_base_wallet_drops_revenue 1
      [⟨1, [("BTC", [("balance", JPrim.num 10)])]⟩]
      [("BTC_USD", JVal.obj [("rate", JPrim.num 3)])] "BTC" "USD" 4 3
      [("balance", JPrim.num 10)] [("rate", JPrim.num 3)]
      (by decide) (by decide) rfl (by decide) rfl rfl rfl (by decide)
  exact ⟨h2, h3⟩
